import Mathlib

/-!
# Verification of the green-routes recommendation pipeline

Shallow embedding of the "healthy plan" recommendation pipeline of the
green-routes repository (the newer `part_000` component and the older
`src/Map.js` component).  Geometry primitives imported from the external
turf library (`center`, `buffer`, `booleanPointInPolygon`) are treated as
opaque collaborators: a feature carries the value of `center(feature)` as
its representative point, and the two containment tests (point within the
radius buffer around the origin, point within a polygon feature) are
passed in as function parameters, exactly as the repository code composes
them.  All list processing, ordering, option/null handling and error
propagation are translated directly from the JavaScript source.
-/

namespace GreenRoutes

/-- A longitude/latitude pair, as the `[lon, lat]` arrays of the source. -/
abbrev Point := ℚ × ℚ

/-- The geometry type tag carried by a GeoJSON feature. -/
inductive GeomType where
  | point
  | lineString
  | polygon
deriving DecidableEq, Repr

/-- A GeoJSON feature as the pipeline consumes it: a geometry type, the
representative point (the value the external `center` primitive computes
for the feature geometry), and the two numeric attributes the pipeline
reads (`percentile` on environmental parcels, `acres` on parks).  A
missing attribute of the underlying JavaScript object is `none`. -/
structure Feature where
  geomType : GeomType
  repPoint : Point
  percentile : Option ℚ := none
  acres : Option ℚ := none
deriving DecidableEq, Repr

/-- JavaScript `a > b` on two possibly-missing numbers: comparing with
`undefined` yields `NaN` and the comparison is `false`. -/
def jsGt : Option ℚ → Option ℚ → Bool
  | some a, some b => decide (b < a)
  | _, _ => false

/-- The constant `SD_BOUNDS = [-117.6, 32.5, -116.1, 33.5]`, ordered `[west, south, east, north]`. -/
def SD_BOUNDS : ℚ × ℚ × ℚ × ℚ := (-117.6, 32.5, -116.1, 33.5)

/-- The bounding-box test `isWithinSanDiego([lon, lat])` from both components. -/
def isWithinSanDiego (p : Point) : Bool :=
  decide (SD_BOUNDS.1 ≤ p.1) && decide (p.1 ≤ SD_BOUNDS.2.2.1) &&
  decide (SD_BOUNDS.2.1 ≤ p.2) && decide (p.2 ≤ SD_BOUNDS.2.2.2)

/-- A raw record of the parks feature service: the attributes and the ring
geometry, reduced to the representative point of the polygon it is mapped
to, plus the `acres` attribute the pipeline reads. -/
structure RawPark where
  repPoint : Point
  acres : Option ℚ := none
deriving DecidableEq, Repr

/-- The `map` step of `fetchParks`: builds a `Polygon` feature from a raw
service record. -/
def parkFeature (r : RawPark) : Feature :=
  { geomType := GeomType.polygon, repPoint := r.repPoint, acres := r.acres }

/-- The fetcher `fetchParks`: map raw records to polygon features, then keep the
features whose representative point lies within the San Diego bounds. -/
def fetchParks (raw : List RawPark) : List Feature :=
  (raw.map parkFeature).filter (fun f => isWithinSanDiego f.repPoint)

/-- The fetcher `fetchEnvironmentalData`: keep the features whose representative point
lies within the San Diego bounds. -/
def fetchEnvironmentalData (raw : List Feature) : List Feature :=
  raw.filter (fun f => isWithinSanDiego f.repPoint)

/-- The loader `loadBikePaths`: `setBikePaths(bikePathsData)` — the static dataset is
stored verbatim, with no bounding-box filtering. -/
def loadBikePaths (bikePathsData : List Feature) : List Feature :=
  bikePathsData

/-- The radius-filter stage of `findBestEnvironmentalParcel` (the spec's
`filterWithinRadius`): keep the candidates whose representative point lies
inside the buffer polygon around the origin.  `inBuffer origin radius pt`
stands for the external `booleanPointInPolygon(pt, buffer(point(origin),
radius, miles))`. -/
def filterWithinRadius (inBuffer : Point → ℚ → Point → Bool)
    (origin : Point) (radiusMiles : ℚ) (candidates : List Feature) : List Feature :=
  candidates.filter (fun f => inBuffer origin radiusMiles f.repPoint)

/-- Insert a parcel into a list already sorted by descending percentile,
keeping it after every element that strictly beats it (stable). -/
def insertByPercentileDesc (x : Feature) : List Feature → List Feature
  | [] => [x]
  | y :: ys =>
    if jsGt y.percentile x.percentile then y :: insertByPercentileDesc x ys
    else x :: y :: ys

/-- The `.sort((a, b) => b.properties.percentile - a.properties.percentile)`
stage: the ECMAScript sort is stable, so the result is the stable
descending-by-percentile ordering, here realised by stable insertion. -/
def sortByPercentileDesc : List Feature → List Feature
  | [] => []
  | x :: xs => insertByPercentileDesc x (sortByPercentileDesc xs)

/-- The shared filter `parks.features.filter(park => booleanPointInPolygon(center(park), parcel))`,
shared verbatim by `findBestEnvironmentalParcel` and `findBiggestParkOrTrail`.
`pip pt host` stands for the external `booleanPointInPolygon(pt, host)`. -/
def parksInParcel (pip : Point → Feature → Bool)
    (parks : List Feature) (parcel : Feature) : List Feature :=
  parks.filter (fun park => pip park.repPoint parcel)

/-- The test `parksInParcel.length > 0`, the qualification test of the parcel scan. -/
def hasParkInParcel (pip : Point → Feature → Bool)
    (parks : List Feature) (parcel : Feature) : Bool :=
  decide (0 < (parksInParcel pip parks parcel).length)

/-- The ranker `findBestEnvironmentalParcel` of `part_000`: guard the three nullable
states, filter the environmental parcels to the 2-mile buffer, sort by
descending percentile, and return the first parcel containing at least one
park by representative point. -/
def findBestEnvironmentalParcel (inBuffer : Point → ℚ → Point → Bool)
    (pip : Point → Feature → Bool) (userLocation : Option Point)
    (environmentalData parks : Option (List Feature)) : Option Feature :=
  match userLocation, environmentalData, parks with
  | some u, some env, some ps =>
    (sortByPercentileDesc (filterWithinRadius inBuffer u 2 env)).find?
      (hasParkInParcel pip ps)
  | _, _, _ => none

/-- The legacy `findBestEnvironmentalParcel` of `src/Map.js`: guard the two nullable
states, filter to the 2-mile buffer, then
`parcelsInRange.reduce((best, current) => current.percentile > best.percentile ? current : best)`.
JavaScript `reduce` with no initial value throws a `TypeError` on an empty
array, modelled as `Except.error`. -/
def findBestEnvironmentalParcelLegacy (inBuffer : Point → ℚ → Point → Bool)
    (userLocation : Option Point) (environmentalData : Option (List Feature)) :
    Except String (Option Feature) :=
  match userLocation, environmentalData with
  | some u, some env =>
    match filterWithinRadius inBuffer u 2 env with
    | [] => Except.error "TypeError: Reduce of empty array with no initial value"
    | x :: xs =>
      Except.ok (some (xs.foldl
        (fun best current =>
          if jsGt current.percentile best.percentile then current else best) x))
  | _, _ => Except.ok none

/-- The reduce callback of `findBiggestParkOrTrail`:
`(current.properties.acres > biggest.properties.acres) ? current : biggest`. -/
def biggerByAcres (biggest current : Feature) : Feature :=
  if jsGt current.acres biggest.acres then current else biggest

/-- The selector `findBiggestParkOrTrail` (identical in both components): guard the two
nullable states; among parks whose representative point is inside the
parcel take the reduce over `biggerByAcres`; if none, take the first trail
whose representative point is inside the parcel, else null. -/
def findBiggestParkOrTrail (pip : Point → Feature → Bool)
    (parks bikePaths : Option (List Feature)) (parcel : Feature) : Option Feature :=
  match parks, bikePaths with
  | some ps, some bps =>
    match parksInParcel pip ps parcel with
    | biggest :: rest => some (rest.foldl biggerByAcres biggest)
    | [] => (bps.filter (fun trail => pip trail.repPoint parcel)).head?
  | _, _ => none

/-- The fixed fallback narrative returned when the language-model call fails. -/
def guideFallback : String :=
  "Sorry, we couldn\x27t generate a guide for this park at the moment."

/-- Building the prompt of `generateParkGuide`: the template evaluates
`parkInfo.acres.toFixed(2)` outside the `try` block, so a park without the
`acres` attribute raises a `TypeError` before the service is called. -/
def guidePrompt (park : Feature) : Except String String :=
  match park.acres with
  | some a =>
    Except.ok ("Create a fun, user-readable guide about a " ++ toString a ++ "-acre park")
  | none =>
    Except.error "TypeError: Cannot read properties of undefined (reading \x27toFixed\x27)"

/-- The narrative stage `generateParkGuide`: build the prompt, call the narrative service
(`svc`, the external language-model API), and catch a failing call by
returning the fixed fallback string. -/
def generateParkGuide (svc : String → Except String String) (park : Feature) :
    Except String String :=
  match guidePrompt park with
  | Except.error e => Except.error e
  | Except.ok prompt =>
    match svc prompt with
    | Except.ok s => Except.ok s
    | Except.error _ => Except.ok guideFallback

/-- The plan category shown to the user. -/
inductive PlanType where
  | park
  | trail
deriving DecidableEq, Repr

/-- The `healthyPlan` record of `part_000`: `{ type, location,
environmentalRating, guide }`.  The walking route is held in separate
component state (`setRoute`) and never enters this record. -/
structure HealthyPlan where
  planType : PlanType
  location : Feature
  environmentalRating : Option ℚ
  guide : String
deriving DecidableEq, Repr

/-- The orchestrator `buildHealthyPlan` of `part_000`: rank the parcels, select the
destination, generate the guide, and assemble the plan; when either
selection stage yields null nothing is set (`Except.ok none`).  An
uncaught exception of the guide stage propagates (`Except.error`).  The
route fetch and the map fly-to are presentation side effects outside the
plan record and are not modelled. -/
def buildHealthyPlan (inBuffer : Point → ℚ → Point → Bool)
    (pip : Point → Feature → Bool) (svc : String → Except String String)
    (userLocation : Option Point)
    (environmentalData parks bikePaths : Option (List Feature)) :
    Except String (Option HealthyPlan) :=
  match findBestEnvironmentalParcel inBuffer pip userLocation environmentalData parks with
  | none => Except.ok none
  | some bestParcel =>
    match findBiggestParkOrTrail pip parks bikePaths bestParcel with
    | none => Except.ok none
    | some bestLocation =>
      match generateParkGuide svc bestLocation with
      | Except.error e => Except.error e
      | Except.ok guide =>
        Except.ok (some
          { planType := if bestLocation.geomType = GeomType.polygon then PlanType.park
                        else PlanType.trail,
            location := bestLocation,
            environmentalRating := bestParcel.percentile,
            guide := guide })

/-! ## Helper lemmas -/

lemma jsGt_irrefl (a : Option ℚ) : jsGt a a = false := by
  cases a <;> simp [jsGt]

lemma jsGt_asymm {a b : Option ℚ} (h : jsGt a b = true) : jsGt b a = false := by
  cases a with
  | none => simp [jsGt] at h
  | some va =>
    cases b with
    | none => simp [jsGt]
    | some vb =>
      simp only [jsGt, decide_eq_true_eq] at h
      simp only [jsGt, decide_eq_false_iff_not, not_lt]
      exact le_of_lt h

lemma jsGt_false_trans {b y x : Option ℚ} (hy : y.isSome = true)
    (h1 : jsGt b y = false) (h2 : jsGt y x = false) : jsGt b x = false := by
  cases b with
  | none => simp [jsGt]
  | some vb =>
    cases y with
    | none => simp at hy
    | some vy =>
      cases x with
      | none => simp [jsGt]
      | some vx =>
        simp only [jsGt, decide_eq_false_iff_not, not_lt] at h1 h2 ⊢
        exact le_trans h1 h2

lemma mem_insertByPercentileDesc {a x : Feature} {s : List Feature} :
    a ∈ insertByPercentileDesc x s ↔ a = x ∨ a ∈ s := by
  induction s with
  | nil => simp [insertByPercentileDesc]
  | cons y ys ih =>
    simp only [insertByPercentileDesc]
    split
    · simp only [List.mem_cons, ih]
      tauto
    · simp only [List.mem_cons]

lemma mem_sortByPercentileDesc {a : Feature} {l : List Feature} :
    a ∈ sortByPercentileDesc l ↔ a ∈ l := by
  induction l with
  | nil => simp [sortByPercentileDesc]
  | cons x xs ih =>
    simp only [sortByPercentileDesc, mem_insertByPercentileDesc, ih, List.mem_cons]

lemma descByPercentile_insert {x : Feature} {s : List Feature}
    (hs : ∀ f ∈ s, (f.percentile).isSome = true)
    (hp : s.Pairwise (fun a b => jsGt b.percentile a.percentile = false)) :
    (insertByPercentileDesc x s).Pairwise
      (fun a b => jsGt b.percentile a.percentile = false) := by
  induction s with
  | nil => simp [insertByPercentileDesc]
  | cons y ys ih =>
    rw [List.pairwise_cons] at hp
    rw [insertByPercentileDesc]
    by_cases h : jsGt y.percentile x.percentile = true
    · simp only [h, if_true]
      rw [List.pairwise_cons]
      constructor
      · intro b hb
        rcases mem_insertByPercentileDesc.mp hb with rfl | hb
        · exact jsGt_asymm h
        · exact hp.1 b hb
      · exact ih (fun f hf => hs f (List.mem_cons_of_mem y hf)) hp.2
    · rw [Bool.not_eq_true] at h
      simp only [h, Bool.false_eq_true, if_false]
      rw [List.pairwise_cons]
      constructor
      · intro b hb
        rcases List.mem_cons.mp hb with rfl | hb
        · exact h
        · exact jsGt_false_trans (hs y (List.mem_cons_self y ys)) (hp.1 b hb) h
      · rw [List.pairwise_cons]
        exact ⟨hp.1, hp.2⟩

lemma descByPercentile_sort {l : List Feature}
    (hl : ∀ f ∈ l, (f.percentile).isSome = true) :
    (sortByPercentileDesc l).Pairwise
      (fun a b => jsGt b.percentile a.percentile = false) := by
  induction l with
  | nil => simp [sortByPercentileDesc]
  | cons x xs ih =>
    rw [sortByPercentileDesc]
    exact descByPercentile_insert
      (fun f hf => hl f (List.mem_cons_of_mem x (mem_sortByPercentileDesc.mp hf)))
      (ih (fun f hf => hl f (List.mem_cons_of_mem x hf)))

/-- The first element found in a descending-sorted list is qualified and no
strictly higher-scored element of the list is. -/
lemma find_desc_optimal {s : List Feature} {qual : Feature → Bool} {p : Feature}
    (hpw : s.Pairwise (fun a b => jsGt b.percentile a.percentile = false))
    (hfind : s.find? qual = some p) :
    p ∈ s ∧ qual p = true ∧
      ∀ q ∈ s, jsGt q.percentile p.percentile = true → qual q = false := by
  induction s with
  | nil => simp at hfind
  | cons x xs ih =>
    rw [List.pairwise_cons] at hpw
    by_cases hx : qual x = true
    · rw [List.find?_cons_of_pos _ hx, Option.some.injEq] at hfind
      subst hfind
      refine ⟨List.mem_cons_self x xs, hx, ?_⟩
      intro q hq hbeat
      rcases List.mem_cons.mp hq with rfl | hq
      · rw [jsGt_irrefl] at hbeat
        exact absurd hbeat (by simp)
      · rw [hpw.1 q hq] at hbeat
        exact absurd hbeat (by simp)
    · rw [Bool.not_eq_true] at hx
      rw [List.find?_cons_of_neg _ (by simp [hx])] at hfind
      obtain ⟨hmem, hqual, hopt⟩ := ih hpw.2 hfind
      refine ⟨List.mem_cons_of_mem x hmem, hqual, ?_⟩
      intro q hq hbeat
      rcases List.mem_cons.mp hq with rfl | hq
      · exact hx
      · exact hopt q hq hbeat

/-- Inserting an element that nothing in the list strictly beats puts it
at the head. -/
lemma insert_head_of_no_beat {p : Feature} {s : List Feature}
    (h : ∀ q ∈ s, jsGt q.percentile p.percentile = false) :
    insertByPercentileDesc p s = p :: s := by
  cases s with
  | nil => rfl
  | cons y ys =>
    rw [insertByPercentileDesc, h y (List.mem_cons_self y ys)]
    simp

/-- The stable descending sort puts the first-listed maximal element at the
head: `p` is beaten by nobody and strictly beats everything listed before
it. -/
lemma sort_head_of_first_max {l₁ : List Feature} {p : Feature} {l₂ : List Feature}
    (hall : ∀ q ∈ l₁ ++ p :: l₂, jsGt q.percentile p.percentile = false)
    (hfirst : ∀ q ∈ l₁, jsGt p.percentile q.percentile = true) :
    ∃ t, sortByPercentileDesc (l₁ ++ p :: l₂) = p :: t := by
  induction l₁ with
  | nil =>
    rw [List.nil_append, sortByPercentileDesc]
    refine ⟨sortByPercentileDesc l₂, insert_head_of_no_beat ?_⟩
    intro q hq
    exact hall q (List.mem_cons_of_mem p (mem_sortByPercentileDesc.mp hq))
  | cons a l₁ ih =>
    rw [List.cons_append, sortByPercentileDesc]
    obtain ⟨t, ht⟩ := ih
      (fun q hq => hall q (List.mem_cons_of_mem a hq))
      (fun q hq => hfirst q (List.mem_cons_of_mem a hq))
    rw [ht, insertByPercentileDesc, hfirst a (List.mem_cons_self a _)]
    exact ⟨insertByPercentileDesc a t, by simp⟩

lemma filter_insert_of_eq {v : ℚ} {x : Feature} {s : List Feature}
    (hx : x.percentile = some v) :
    (insertByPercentileDesc x s).filter (fun f => decide (f.percentile = some v)) =
      x :: s.filter (fun f => decide (f.percentile = some v)) := by
  induction s with
  | nil => simp [insertByPercentileDesc, hx]
  | cons y ys ih =>
    rw [insertByPercentileDesc]
    by_cases h : jsGt y.percentile x.percentile = true
    · have hyne : ¬ y.percentile = some v := by
        rw [hx] at h
        cases hyp : y.percentile with
        | none => rw [hyp] at h; simp [jsGt] at h
        | some w =>
          rw [hyp] at h
          simp only [jsGt, decide_eq_true_eq] at h
          simp only [Option.some.injEq]
          intro he
          rw [he] at h
          exact lt_irrefl v h
      rw [if_pos h]
      simp [hyne, ih]
    · rw [if_neg h]
      simp [hx]

lemma filter_insert_of_ne {v : ℚ} {x : Feature} {s : List Feature}
    (hx : ¬ x.percentile = some v) :
    (insertByPercentileDesc x s).filter (fun f => decide (f.percentile = some v)) =
      s.filter (fun f => decide (f.percentile = some v)) := by
  induction s with
  | nil => simp [insertByPercentileDesc, hx]
  | cons y ys ih =>
    rw [insertByPercentileDesc]
    by_cases h : jsGt y.percentile x.percentile = true
    · rw [if_pos h]
      simp only [List.filter_cons, ih]
    · rw [if_neg h]
      simp [hx]

/-- The result of a fold over `biggerByAcres` is the accumulator or one of
the folded elements. -/
lemma foldl_biggerByAcres_mem (a : Feature) (l : List Feature) :
    l.foldl biggerByAcres a ∈ a :: l := by
  induction l generalizing a with
  | nil => simp
  | cons c cs ih =>
    rw [List.foldl_cons]
    have h := ih (biggerByAcres a c)
    rcases List.mem_cons.mp h with heq | hmem
    · rw [heq, biggerByAcres]
      split
      · simp
      · simp
    · exact List.mem_cons_of_mem a (List.mem_cons_of_mem c hmem)

/-- Folding `biggerByAcres` over elements none of which beats the
accumulator keeps the accumulator. -/
lemma foldl_biggerByAcres_no_beat {a : Feature} {l : List Feature}
    (h : ∀ c ∈ l, jsGt c.acres a.acres = false) :
    l.foldl biggerByAcres a = a := by
  induction l with
  | nil => rfl
  | cons c cs ih =>
    rw [List.foldl_cons, biggerByAcres, h c (List.mem_cons_self c cs)]
    simp only [Bool.false_eq_true, if_false]
    exact ih (fun d hd => h d (List.mem_cons_of_mem c hd))

lemma mem_fetchParks {f : Feature} {raw : List RawPark} (hf : f ∈ fetchParks raw) :
    f.geomType = GeomType.polygon ∧ isWithinSanDiego f.repPoint = true := by
  rw [fetchParks] at hf
  have hmem := List.mem_of_mem_filter hf
  have hbox := List.of_mem_filter hf
  obtain ⟨r, _, rfl⟩ := List.mem_map.mp hmem
  exact ⟨rfl, hbox⟩

/-- Modelled from the spec: the parcel ranker as §4.2/§8 and claim C1 word
it, with a destination candidate being "a park or trail" — the parcel
qualifies when at least one park *or trail* has its representative point
inside it.  Kept for comparison with the source's
`findBestEnvironmentalParcel`, which consults only parks. -/
def bestParcelContainingSpec (inBuffer : Point → ℚ → Point → Bool)
    (pip : Point → Feature → Bool) (origin : Point)
    (env parks trails : List Feature) : Option Feature :=
  (sortByPercentileDesc (filterWithinRadius inBuffer origin 2 env)).find?
    (fun parcel =>
      decide (0 < ((parks ++ trails).filter (fun f => pip f.repPoint parcel)).length))

/-! ## Concrete instances for counterexamples and witnesses -/

/-- A user location inside San Diego. -/
def cU : Point := (-117, 33)

/-- A buffer test that accepts every representative point. -/
def cBufAll : Point → ℚ → Point → Bool := fun _ _ _ => true

/-- A buffer test that accepts no representative point. -/
def cBufNone : Point → ℚ → Point → Bool := fun _ _ _ => false

/-- A point-in-polygon test that accepts everything. -/
def cPipAll : Point → Feature → Bool := fun _ _ => true

/-- An environmental parcel of percentile 0.9. -/
def cParcelA : Feature :=
  { geomType := GeomType.polygon, repPoint := (-117, 33), percentile := some (9/10) }

/-- A bike-path trail inside San Diego. -/
def cTrail : Feature := { geomType := GeomType.lineString, repPoint := (-117, 33) }

/-- A bike-path trail whose representative point is outside the San Diego
bounds. -/
def cFarTrail : Feature := { geomType := GeomType.lineString, repPoint := (0, 0) }

/-- A park record with no `acres` attribute. -/
def cParkNoAcres : Feature := { geomType := GeomType.polygon, repPoint := (-117, 33) }

/-- A 5-acre park. -/
def cPark5 : Feature :=
  { geomType := GeomType.polygon, repPoint := (-117, 33), acres := some 5 }

/-- A 3.2-acre park. -/
def cPark32 : Feature :=
  { geomType := GeomType.polygon, repPoint := (-117, 33), acres := some (16/5) }

/-- A 7.8-acre park. -/
def cPark78 : Feature :=
  { geomType := GeomType.polygon, repPoint := (-117, 33), acres := some (39/5) }

/-- Two distinct parcels carrying the same percentile 0.5. -/
def cP1 : Feature :=
  { geomType := GeomType.polygon, repPoint := (-117, 33), percentile := some (1/2) }

/-- See `cP1`. -/
def cP2 : Feature :=
  { geomType := GeomType.polygon, repPoint := (-1171/10, 329/10), percentile := some (1/2) }

/-- A raw 7.8-acre park record inside the San Diego bounds. -/
def cRaw78 : RawPark := { repPoint := (-117, 33), acres := some (39/5) }

/-- A narrative service that always answers. -/
def cSvcOk : String → Except String String := fun _ => Except.ok "a fine guide"

/-- A narrative service that always fails. -/
def cSvcDown : String → Except String String :=
  fun _ => Except.error "service unavailable"

/-! ## Claim theorems -/

/-- C1, counterexample: with one in-range parcel whose polygon contains a
trail but no park, the claim ("destination candidate (park or trail)")
says the parcel is returned, but `findBestEnvironmentalParcel` consults
only parks and returns none, while the spec-worded ranker
`bestParcelContainingSpec` (parks or trails) returns the parcel. -/
theorem C1_park_or_trail_counterexample :
    findBestEnvironmentalParcel cBufAll cPipAll (some cU) (some [cParcelA])
        (some []) = none ∧
      bestParcelContainingSpec cBufAll cPipAll cU [cParcelA] [] [cTrail] =
        some cParcelA :=
  ⟨rfl, rfl⟩

/-- C1, amended: for every user location and environmental-parcel
collection (all parcels carrying a percentile), `findBestEnvironmentalParcel`
returns an in-range parcel that contains at least one PARK by
representative point and such that every strictly higher-scored in-range
parcel contains no park (monotonic fallback); it returns none exactly when
no in-range parcel contains a park.  Trails are never consulted at this
stage. -/
theorem C1_findBestEnvironmentalParcel_spec
    (inBuffer : Point → ℚ → Point → Bool) (pip : Point → Feature → Bool)
    (u : Point) (env parks : List Feature)
    (hscores : ∀ f ∈ env, (f.percentile).isSome = true) :
    (∀ p, findBestEnvironmentalParcel inBuffer pip (some u) (some env)
        (some parks) = some p →
      p ∈ filterWithinRadius inBuffer u 2 env ∧
      hasParkInParcel pip parks p = true ∧
      ∀ q ∈ filterWithinRadius inBuffer u 2 env,
        jsGt q.percentile p.percentile = true → hasParkInParcel pip parks q = false) ∧
    (findBestEnvironmentalParcel inBuffer pip (some u) (some env)
        (some parks) = none →
      ∀ q ∈ filterWithinRadius inBuffer u 2 env,
        hasParkInParcel pip parks q = false) := by
  have hin : ∀ f ∈ filterWithinRadius inBuffer u 2 env, (f.percentile).isSome = true :=
    fun f hf => hscores f (List.mem_of_mem_filter hf)
  constructor
  · intro p hp
    simp only [findBestEnvironmentalParcel] at hp
    obtain ⟨hmem, hqual, hopt⟩ := find_desc_optimal (descByPercentile_sort hin) hp
    exact ⟨mem_sortByPercentileDesc.mp hmem, hqual,
      fun q hq hbeat => hopt q (mem_sortByPercentileDesc.mpr hq) hbeat⟩
  · intro hnone q hq
    simp only [findBestEnvironmentalParcel] at hnone
    have h := List.find?_eq_none.mp hnone q (mem_sortByPercentileDesc.mpr hq)
    simpa using h

/-- C1, witness: the amended theorem applied to one in-range parcel
containing one park. -/
theorem C1_findBestEnvironmentalParcel_spec_witness :
    hasParkInParcel cPipAll [cPark5] cParcelA = true :=
  ((C1_findBestEnvironmentalParcel_spec cBufAll cPipAll cU [cParcelA] [cPark5]
      (by decide)).1 cParcelA rfl).2.1

/-- C2: with a user location and a non-empty parcel collection none of
which lies within the buffer, the legacy `findBestEnvironmentalParcel` of
`src/Map.js` reduces over an empty array with no initial value and throws
a `TypeError`, instead of the defined no-recommendation outcome; the newer
`part_000` version returns none as the claim states. -/
theorem C2_legacy_empty_range_throws :
    findBestEnvironmentalParcelLegacy cBufNone (some cU) (some [cParcelA]) =
      Except.error "TypeError: Reduce of empty array with no initial value" ∧
    findBestEnvironmentalParcel cBufNone cPipAll (some cU) (some [cParcelA])
      (some [cPark5]) = none :=
  ⟨rfl, rfl⟩

/-- C3, counterexample: `loadBikePaths` stores the static trail dataset
verbatim, so a trail whose representative point is outside the San Diego
bounds is in the loaded collection — the bounding-box invariant is not
enforced for bike paths. -/
theorem C3_bikePaths_unfiltered_counterexample :
    loadBikePaths [cFarTrail] = [cFarTrail] ∧
      isWithinSanDiego cFarTrail.repPoint = false :=
  ⟨rfl, by norm_num [isWithinSanDiego, SD_BOUNDS, cFarTrail]⟩

/-- C3, amended: the bounding-box invariant is enforced at fetch time for
the environmental parcels and the parks, but not for the bike paths. -/
theorem C3_fetch_bbox_invariant :
    (∀ raw : List RawPark, ∀ f ∈ fetchParks raw,
      isWithinSanDiego f.repPoint = true) ∧
    (∀ raw : List Feature, ∀ f ∈ fetchEnvironmentalData raw,
      isWithinSanDiego f.repPoint = true) := by
  constructor
  · intro raw f hf
    exact (mem_fetchParks hf).2
  · intro raw f hf
    rw [fetchEnvironmentalData] at hf
    simpa using List.of_mem_filter hf

/-- The fetched-parks collection of the concrete raw record. -/
lemma fetchParks_cRaw78 : fetchParks [cRaw78] = [parkFeature cRaw78] := by
  have hSD : isWithinSanDiego (parkFeature cRaw78).repPoint = true := by
    norm_num [isWithinSanDiego, SD_BOUNDS, parkFeature, cRaw78]
  simp [fetchParks, hSD]

/-- C3, witness: the amended invariant applied to a concrete fetched park. -/
theorem C3_fetch_bbox_invariant_witness :
    isWithinSanDiego (parkFeature cRaw78).repPoint = true :=
  C3_fetch_bbox_invariant.1 [cRaw78] (parkFeature cRaw78)
    (by rw [fetchParks_cRaw78]; exact List.mem_singleton.mpr rfl)

/-- C4: with a parcel containing first a park lacking the `acres`
attribute and then a 5-acre park, `findBiggestParkOrTrail` returns the
missing-field park (the JavaScript comparison `5 > undefined` is false, so
the first element is kept) — the missing-field feature wins over a feature
that has the field; and `generateParkGuide` evaluates `acres.toFixed(2)`
outside its try block and throws on the missing field, crashing the
pipeline. -/
theorem C4_missing_acres_wins_and_crashes :
    findBiggestParkOrTrail cPipAll (some [cParkNoAcres, cPark5]) (some [])
        cParcelA = some cParkNoAcres ∧
      generateParkGuide cSvcOk cParkNoAcres =
        Except.error
          "TypeError: Cannot read properties of undefined (reading \x27toFixed\x27)" :=
  ⟨rfl, rfl⟩

/-- The reduce over `biggerByAcres` returns the first-listed maximal
element: `p` is beaten by nobody in the list and strictly beats everything
listed before it. -/
lemma reduce_first_max (m₁ : List Feature) (p : Feature) (m₂ : List Feature)
    (hmax : ∀ f ∈ m₁ ++ p :: m₂, jsGt f.acres p.acres = false)
    (hfirst : ∀ f ∈ m₁, jsGt p.acres f.acres = true) :
    ∃ b rest, m₁ ++ p :: m₂ = b :: rest ∧ rest.foldl biggerByAcres b = p := by
  cases m₁ with
  | nil =>
    refine ⟨p, m₂, rfl, foldl_biggerByAcres_no_beat ?_⟩
    intro c hc
    exact hmax c (by simp [hc])
  | cons q m₁ =>
    refine ⟨q, m₁ ++ p :: m₂, rfl, ?_⟩
    rw [List.foldl_append, List.foldl_cons]
    have hacc : m₁.foldl biggerByAcres q ∈ q :: m₁ := foldl_biggerByAcres_mem q m₁
    have hbeat : jsGt p.acres (m₁.foldl biggerByAcres q).acres = true := by
      rcases List.mem_cons.mp hacc with heq | hmem
      · rw [heq]
        exact hfirst q (List.mem_cons_self q m₁)
      · exact hfirst _ (List.mem_cons_of_mem q hmem)
    have hstep : biggerByAcres (m₁.foldl biggerByAcres q) p = p := by
      rw [biggerByAcres, hbeat]
      simp
    rw [hstep]
    refine foldl_biggerByAcres_no_beat ?_
    intro c hc
    exact hmax c (by simp [hc])

/-- C5: the parcel ranking is stable — (i) the descending sort preserves
the relative input order of parcels with equal percentile, and (ii) when
the first-listed of the maximal-score in-range parcels contains a park, it
is the parcel selected. -/
theorem C5_stable_tie_selection :
    (∀ (l : List Feature) (v : ℚ),
      (sortByPercentileDesc l).filter (fun f => decide (f.percentile = some v)) =
        l.filter (fun f => decide (f.percentile = some v))) ∧
    (∀ (inBuffer : Point → ℚ → Point → Bool) (pip : Point → Feature → Bool)
      (u : Point) (env parks l₁ : List Feature) (p : Feature) (l₂ : List Feature),
      filterWithinRadius inBuffer u 2 env = l₁ ++ p :: l₂ →
      (∀ q ∈ filterWithinRadius inBuffer u 2 env,
        jsGt q.percentile p.percentile = false) →
      (∀ q ∈ l₁, jsGt p.percentile q.percentile = true) →
      hasParkInParcel pip parks p = true →
      findBestEnvironmentalParcel inBuffer pip (some u) (some env) (some parks) =
        some p) := by
  constructor
  · intro l v
    induction l with
    | nil => simp [sortByPercentileDesc]
    | cons x xs ih =>
      rw [sortByPercentileDesc]
      by_cases hx : x.percentile = some v
      · rw [filter_insert_of_eq hx, ih]
        simp [hx]
      · rw [filter_insert_of_ne hx, ih]
        simp [hx]
  · intro inBuffer pip u env parks l₁ p l₂ hsplit hall hfirst hqual
    rw [hsplit] at hall
    simp only [findBestEnvironmentalParcel]
    rw [hsplit]
    obtain ⟨t, ht⟩ := sort_head_of_first_max hall hfirst
    rw [ht]
    exact List.find?_cons_of_pos _ hqual

/-- C5, witness: two in-range parcels of equal percentile, both containing
a park — the first-listed is selected. -/
theorem C5_stable_tie_selection_witness :
    findBestEnvironmentalParcel cBufAll cPipAll (some cU) (some [cP1, cP2])
      (some [cPark5]) = some cP1 := by
  refine C5_stable_tie_selection.2 cBufAll cPipAll cU [cP1, cP2] [cPark5]
    [] cP1 [cP2] rfl ?_ ?_ rfl
  · intro q hq
    have hq2 : q = cP1 ∨ q = cP2 := by
      simpa [filterWithinRadius, cBufAll] using hq
    rcases hq2 with rfl | rfl <;> norm_num [jsGt, cP1, cP2]
  · intro q hq
    simp at hq

/-- C6: among the parks whose representative point lies inside the parcel,
`findBiggestParkOrTrail` returns the one with the largest acres attribute,
ties broken by first occurrence (`p` is beaten by no qualifying park and
strictly beats every qualifying park listed before it). -/
theorem C6_selectDestination_biggest_park
    (pip : Point → Feature → Bool) (parks trails : List Feature)
    (parcel : Feature) (m₁ : List Feature) (p : Feature) (m₂ : List Feature)
    (hsplit : parksInParcel pip parks parcel = m₁ ++ p :: m₂)
    (hmax : ∀ f ∈ parksInParcel pip parks parcel, jsGt f.acres p.acres = false)
    (hfirst : ∀ f ∈ m₁, jsGt p.acres f.acres = true) :
    findBiggestParkOrTrail pip (some parks) (some trails) parcel = some p := by
  rw [hsplit] at hmax
  obtain ⟨b, rest, hbr, hfold⟩ := reduce_first_max m₁ p m₂ hmax hfirst
  simp only [findBiggestParkOrTrail]
  rw [hsplit, hbr]
  show some (rest.foldl biggerByAcres b) = some p
  rw [hfold]

/-- C6, witness: the spec scenario — parks of 3.2 and 7.8 acres both
inside the winning parcel; the 7.8-acre park is returned. -/
theorem C6_selectDestination_biggest_park_witness :
    findBiggestParkOrTrail cPipAll (some [cPark32, cPark78]) (some [])
      cParcelA = some cPark78 := by
  refine C6_selectDestination_biggest_park cPipAll [cPark32, cPark78] []
    cParcelA [cPark32] cPark78 [] rfl ?_ ?_
  · intro f hf
    have hf2 : f = cPark32 ∨ f = cPark78 := by
      simpa [parksInParcel, cPipAll] using hf
    rcases hf2 with rfl | rfl <;> norm_num [jsGt, cPark32, cPark78]
  · intro f hf
    have hf2 : f = cPark32 := by simpa using hf
    subst hf2
    norm_num [jsGt, cPark32, cPark78]

/-- C7: whenever at least one park lies inside the parcel the selector
returns one of those parks (never a trail); with no qualifying park it
returns the first in-parcel trail in input order (no ranking), and none
when neither category yields a candidate. -/
theorem C7_selectDestination_prefers_park
    (pip : Point → Feature → Bool) (parks trails : List Feature)
    (parcel : Feature) :
    (parksInParcel pip parks parcel ≠ [] →
      ∃ r, findBiggestParkOrTrail pip (some parks) (some trails) parcel = some r ∧
        r ∈ parksInParcel pip parks parcel) ∧
    (parksInParcel pip parks parcel = [] →
      findBiggestParkOrTrail pip (some parks) (some trails) parcel =
        (trails.filter (fun trail => pip trail.repPoint parcel)).head?) := by
  constructor
  · intro hne
    cases hp : parksInParcel pip parks parcel with
    | nil => exact absurd hp hne
    | cons b rest =>
      refine ⟨rest.foldl biggerByAcres b, ?_, ?_⟩
      · simp only [findBiggestParkOrTrail]
        rw [hp]
      · exact foldl_biggerByAcres_mem b rest
  · intro hp
    simp only [findBiggestParkOrTrail]
    rw [hp]

/-- C7, witness: with a park and a trail inside the parcel a park is
returned; with only a trail inside, that first trail is returned. -/
theorem C7_selectDestination_prefers_park_witness :
    (∃ r, findBiggestParkOrTrail cPipAll (some [cPark5]) (some [cTrail])
        cParcelA = some r ∧ r ∈ parksInParcel cPipAll [cPark5] cParcelA) ∧
    findBiggestParkOrTrail cPipAll (some []) (some [cTrail]) cParcelA =
      some cTrail := by
  constructor
  · exact (C7_selectDestination_prefers_park cPipAll [cPark5] [cTrail]
      cParcelA).1 (by simp [parksInParcel, cPipAll])
  · have h := (C7_selectDestination_prefers_park cPipAll [] [cTrail]
      cParcelA).2 rfl
    rw [h]
    rfl

/-- C8: whenever the pipeline reaches a destination whose `acres`
attribute is present and the narrative service call fails, plan
construction still completes and the plan's guide field is the fixed
fallback string — the failure is absorbed, not fatal. -/
theorem C8_narrative_failure_degrades
    (inBuffer : Point → ℚ → Point → Bool) (pip : Point → Feature → Bool)
    (svc : String → Except String String) (u : Point)
    (env parks trails : List Feature) (parcel loc : Feature)
    (hsvc : ∀ s, ∃ e, svc s = Except.error e)
    (hbest : findBestEnvironmentalParcel inBuffer pip (some u) (some env)
      (some parks) = some parcel)
    (hloc : findBiggestParkOrTrail pip (some parks) (some trails) parcel =
      some loc)
    (hacres : (loc.acres).isSome = true) :
    buildHealthyPlan inBuffer pip svc (some u) (some env) (some parks)
        (some trails) =
      Except.ok (some
        { planType := if loc.geomType = GeomType.polygon then PlanType.park
                      else PlanType.trail,
          location := loc,
          environmentalRating := parcel.percentile,
          guide := guideFallback }) := by
  obtain ⟨a, hac⟩ := Option.isSome_iff_exists.mp hacres
  obtain ⟨e, he⟩ := hsvc
    ("Create a fun, user-readable guide about a " ++ toString a ++ "-acre park")
  simp only [buildHealthyPlan, hbest, hloc, generateParkGuide, guidePrompt,
    hac, he]

/-- C8, witness: a concrete pipeline run with a failing narrative service
still yields a plan carrying the fallback guide. -/
theorem C8_narrative_failure_degrades_witness :
    buildHealthyPlan cBufAll cPipAll cSvcDown (some cU) (some [cParcelA])
        (some [cPark5]) (some [cTrail]) =
      Except.ok (some
        { planType := PlanType.park, location := cPark5,
          environmentalRating := some (9/10), guide := guideFallback }) := by
  have h := C8_narrative_failure_degrades cBufAll cPipAll cSvcDown cU
    [cParcelA] [cPark5] [cTrail] cParcelA cPark5
    (fun s => ⟨"service unavailable", rfl⟩) rfl rfl rfl
  simpa using h

/-- C9: the radius filter is idempotent — filtering its own output with
the same origin and radius returns the same collection — and the filter
preserves the input order of the retained candidates (its output is a
sublist of the input). -/
theorem C9_filterWithinRadius_idempotent
    (inBuffer : Point → ℚ → Point → Bool) (origin : Point) (radiusMiles : ℚ)
    (candidates : List Feature) :
    filterWithinRadius inBuffer origin radiusMiles
        (filterWithinRadius inBuffer origin radiusMiles candidates) =
      filterWithinRadius inBuffer origin radiusMiles candidates ∧
    (filterWithinRadius inBuffer origin radiusMiles candidates).Sublist
      candidates := by
  constructor
  · simp only [filterWithinRadius, List.filter_filter]
    congr 1
    funext f
    cases h : inBuffer origin radiusMiles f.repPoint <;> simp [h]
  · exact List.filter_sublist candidates

/-- C10: in the newer pipeline every constructed plan has category Park:
with the parks collection produced by `fetchParks`, a successful
`buildHealthyPlan` always selects a park feature (every fetched park is a
Polygon), and the trail-fallback branch of `findBiggestParkOrTrail` is
never taken. -/
theorem C10_plans_always_park
    (inBuffer : Point → ℚ → Point → Bool) (pip : Point → Feature → Bool)
    (svc : String → Except String String) (u : Point) (env : List Feature)
    (rawParks : List RawPark) (trails : List Feature) (plan : HealthyPlan)
    (hplan : buildHealthyPlan inBuffer pip svc (some u) (some env)
        (some (fetchParks rawParks)) (some trails) = Except.ok (some plan)) :
    plan.planType = PlanType.park ∧ plan.location ∈ fetchParks rawParks := by
  cases hbest : findBestEnvironmentalParcel inBuffer pip (some u) (some env)
      (some (fetchParks rawParks)) with
  | none =>
    simp only [buildHealthyPlan, hbest] at hplan
    simp at hplan
  | some parcel =>
    have hqual : hasParkInParcel pip (fetchParks rawParks) parcel = true := by
      simp only [findBestEnvironmentalParcel] at hbest
      exact List.find?_some hbest
    cases hp : parksInParcel pip (fetchParks rawParks) parcel with
    | nil =>
      rw [hasParkInParcel, hp] at hqual
      simp at hqual
    | cons b rest =>
      have hloc : findBiggestParkOrTrail pip (some (fetchParks rawParks))
          (some trails) parcel = some (rest.foldl biggerByAcres b) := by
        simp only [findBiggestParkOrTrail]
        rw [hp]
      have hmem : rest.foldl biggerByAcres b ∈ fetchParks rawParks := by
        have h1 : rest.foldl biggerByAcres b ∈ parksInParcel pip
            (fetchParks rawParks) parcel := by
          rw [hp]
          exact foldl_biggerByAcres_mem b rest
        rw [parksInParcel] at h1
        exact List.mem_of_mem_filter h1
      have hpoly := (mem_fetchParks hmem).1
      simp only [buildHealthyPlan, hbest, hloc] at hplan
      cases hguide : generateParkGuide svc (rest.foldl biggerByAcres b) with
      | error e =>
        rw [hguide] at hplan
        simp at hplan
      | ok g =>
        rw [hguide] at hplan
        simp only [Except.ok.injEq, Option.some.injEq] at hplan
        rw [← hplan]
        simp [hpoly, hmem]

/-- A concrete plan produced by a full pipeline run. -/
def cPlanC10 : HealthyPlan :=
  { planType := PlanType.park, location := parkFeature cRaw78,
    environmentalRating := some (9/10), guide := "a fine guide" }

/-- C10, witness: a concrete successful run whose plan the theorem shows
to be a Park backed by a fetched park feature. -/
theorem C10_plans_always_park_witness :
    cPlanC10.planType = PlanType.park ∧
      cPlanC10.location ∈ fetchParks [cRaw78] :=
  C10_plans_always_park cBufAll cPipAll cSvcOk cU [cParcelA] [cRaw78]
    [cTrail] cPlanC10 (by rw [fetchParks_cRaw78]; rfl)

end GreenRoutes
